import Mathlib

/-!
Shallow embedding of the `relm` test helpers (`src/relm-test/src/lib.rs`) and
of the widget-list example application (`src/examples/widget-list.rs`).

The GTK event loop is modelled as an environment ("world"): each call to
`gtk_test::run_loop` consumes one element of the world, which describes the
toolkit activity during that pump.  For the message observer each pump
delivers a batch of application messages to the registered stream callback;
for the boolean observer each pump tells whether the connected signal fired.
Shared mutable cells (`Rc<RefCell<...>>`) become explicit state threaded
through the functions.
-/

set_option autoImplicit false

namespace Relm

variable {MSG : Type}

/-- The message observer of `relm-test` (`struct Observer<MSG>`): a result
cell holding the last matching message, together with the predicate captured
by the closure registered in `Observer::new`. -/
structure Observer (MSG : Type) where
  predicate : MSG → Bool
  result : Option MSG

/-- `Observer::new(stream, predicate)`: the result cell starts out empty and
the predicate is captured by the stream callback. -/
def Observer.new (predicate : MSG → Bool) : Observer MSG :=
  { predicate := predicate, result := none }

/-- The stream callback registered by `Observer::new`: when a message arrives
on the stream, store it in the result cell iff the predicate matches it,
otherwise leave the cell unchanged. -/
def observeCallback (predicate : MSG → Bool) (cell : Option MSG) (msg : MSG) : Option MSG :=
  if predicate msg then some msg else cell

/-- One `gtk_test::run_loop` pump: every message delivered during the pump is
fed to the stream callback in order. -/
def runLoopBatch (predicate : MSG → Bool) (cell : Option MSG) (batch : List MSG) : Option MSG :=
  batch.foldl (observeCallback predicate) cell

/-- The contents of the observer's result cell after a prefix of the world
has been pumped. -/
def cellAfter (predicate : MSG → Bool) (cell : Option MSG) (world : List (List MSG)) :
    Option MSG :=
  world.foldl (runLoopBatch predicate) cell

/-- The loop of `Observer::wait`: if the result cell holds a message, break
out and `take()` it (returning also the number of `run_loop` calls made);
otherwise call `gtk_test::run_loop` (consuming one element of the world) and
loop again.  An exhausted world means the callback never fired: the real loop
would spin forever, modelled as `none`. -/
def waitAux (predicate : MSG → Bool) : Option MSG → List (List MSG) → Option (MSG × Nat)
  | some msg, _ => some (msg, 0)
  | none, [] => none
  | none, batch :: rest =>
      (waitAux predicate (runLoopBatch predicate none batch) rest).map
        (fun p => (p.1, p.2 + 1))

/-- `Observer::wait` run against a given world. -/
def Observer.wait (o : Observer MSG) (world : List (List MSG)) : Option (MSG × Nat) :=
  waitAux o.predicate o.result world

/-- The `take().expect("Message to take")` at the end of `Observer::wait`:
taking from an empty cell panics. -/
def takeExpect (cell : Option MSG) : Except String MSG :=
  match cell with
  | some msg => Except.ok msg
  | none => Except.error "Message to take"

/-- The body generated by `relm_observer_wait!`: match the waited message
against the expected variant pattern (`extract` returns the bound fields when
the pattern matches); a non-matching message panics with
"Wrong message type.". -/
def relmObserverWait {α : Type} (extract : MSG → Option α) (msg : MSG) : Except String α :=
  match extract msg with
  | some fields => Except.ok fields
  | none => Except.error "Wrong message type."

/-- Modelled from the spec: `gtk_test::Observer` (from the external
`gtk-test` crate, not under `src/`) is "a test-helper construct that records
whether a signal fired": a shared boolean flag behind `get_inner()`. -/
structure GtkObserver where
  inner : Bool

/-- Modelled from the spec: `gtk_test::Observer::new()` starts with the flag
not yet fired. -/
def GtkObserver.new : GtkObserver :=
  { inner := false }

/-- The signal handler connected by the `gtk_observer_new!` macro:
`*res.borrow_mut() = true`. -/
def gtkSignalHandler (_inner : Bool) : Bool :=
  true

/-- The observer built by `gtk_observer_new!`: a fresh `gtk_test::Observer`
whose cloned inner flag the connected signal handler sets to `true`. -/
def gtkObserverNew : GtkObserver :=
  GtkObserver.new

/-- The flag after a prefix of event-loop pumps: each pump either fires the
connected signal (running `gtkSignalHandler`) or leaves the flag alone. -/
def flagAfterPumps (inner : Bool) (pumps : List Bool) : Bool :=
  pumps.foldl (fun flag fired => if fired then gtkSignalHandler flag else flag) inner

/-- Modelled from the spec: the busy-poll loop of `gtk_test::Observer::wait`
(external crate), which the input helpers call — "busy-poll the loop until an
observer flag is set by a toolkit callback".  Returns the number of pumps
consumed before the flag was observed set. -/
def gtkWaitAux : Bool → List Bool → Option Nat
  | true, _ => some 0
  | false, [] => none
  | false, fired :: rest =>
      (gtkWaitAux (if fired then gtkSignalHandler false else false) rest).map (fun n => n + 1)

/-- `observer.wait()` for the boolean observer, run against a given world of
pumps. -/
def GtkObserver.wait (o : GtkObserver) (pumps : List Bool) : Option Nat :=
  gtkWaitAux o.inner pumps

end Relm

namespace WidgetList

/-- The counter message type of the example (`enum CounterMsg`). -/
inductive CounterMsg where
  | Decrement
  | Increment
deriving DecidableEq

/-- The counter model of the example (`struct Model { counter: i32 }`).
The `i32` field is an `Int` kept in two's-complement range by `wrap32`. -/
structure Model where
  counter : Int
deriving DecidableEq

/-- Two's-complement wrap-around of `i32` arithmetic. -/
def wrap32 (n : Int) : Int :=
  (n + 2 ^ 31) % 2 ^ 32 - 2 ^ 31

/-- The `Counter` widget: its label (we track the label's text) inside its
`vbox`. -/
structure Counter where
  counter_label : String
deriving DecidableEq

/-- A counter widget paired with its model, as managed by a relm component. -/
structure CounterState where
  model : Model
  widget : Counter
deriving DecidableEq

/-- `Counter::model()`: the initial model has `counter == 0`. -/
def Counter.model : Model :=
  { counter := 0 }

/-- `Counter::view`: builds the vbox with a label initially showing "0". -/
def Counter.view (model : Model) : CounterState :=
  { model := model, widget := { counter_label := "0" } }

/-- `Counter::update`: `Decrement` subtracts 1 from the model counter (i32
arithmetic) and sets the label text to `counter.to_string()`; `Increment`
adds 1 and does the same. -/
def Counter.update (event : CounterMsg) (s : CounterState) : CounterState :=
  match event with
  | CounterMsg.Decrement =>
      let c := wrap32 (s.model.counter - 1)
      { model := { counter := c }, widget := { counter_label := toString c } }
  | CounterMsg.Increment =>
      let c := wrap32 (s.model.counter + 1)
      { model := { counter := c }, widget := { counter_label := toString c } }

/-- The window message type of the example (`enum Msg`). -/
inductive Msg where
  | Add
  | Quit
  | Remove
deriving DecidableEq

/-- A counter component held in `Win::counters`: the id of its container
widget (the counter's vbox) plus the widget/model state. -/
structure Component where
  id : Nat
  state : CounterState
deriving DecidableEq

/-- The `Win` widget state: the list of counter components in push order, the
ids of the child widgets of the `hbox` container, a fresh-id counter for
newly created widgets, and the main loop's quit flag (`gtk::main_quit`). -/
structure WinState where
  counters : List Component
  hbox : List Nat
  nextId : Nat
  quit : Bool
deriving DecidableEq

/-- `Win::view`: the window starts with no counters and an empty hbox. -/
def Win.view : WinState :=
  { counters := [], hbox := [], nextId := 0, quit := false }

/-- `self.hbox.add_widget::<Counter, _, _>(&self.relm)`: create a new
`Counter` component (`Counter::view` on `Counter::model()`), add its
container widget to the hbox, and return the component. -/
def Win.addWidget (s : WinState) : WinState × Component :=
  let comp : Component := { id := s.nextId, state := Counter.view Counter.model }
  ({ s with hbox := s.hbox ++ [comp.id], nextId := s.nextId + 1 }, comp)

/-- `Win::update`: `Add` creates a counter component and pushes it;
`Quit` calls `gtk::main_quit()`; `Remove` pops the last counter, if any, and
removes its widget from the hbox. -/
def Win.update (event : Msg) (s : WinState) : WinState :=
  match event with
  | Msg.Add =>
      let res := Win.addWidget s
      { res.1 with counters := res.1.counters ++ [res.2] }
  | Msg.Quit => { s with quit := true }
  | Msg.Remove =>
      match s.counters.getLast? with
      | none => s
      | some comp =>
          { s with counters := s.counters.dropLast, hbox := s.hbox.erase comp.id }

end WidgetList

namespace Relm

/-- The `enigo::Key` values appearing in `gdk_key_to_enigo_key`. -/
inductive EnigoKey where
  | Return
  | Tab
  | Space
  | Backspace
  | Escape
  | Meta
  | Control
  | Shift
  | CapsLock
  | Alt
  | Option
  | End
  | Home
  | PageDown
  | PageUp
  | LeftArrow
  | RightArrow
  | DownArrow
  | UpArrow
  | F1
  | F2
  | F3
  | F4
  | F5
  | F6
  | F7
  | F8
  | F9
  | F10
  | F11
  | F12
  | Layout (c : Char)
  | Raw (v : Nat)
deriving DecidableEq

end Relm

namespace GDK

/-- gdk keyval of `key::Return`. -/
def Return : Nat := 0xFF0D

/-- gdk keyval of `key::Tab`. -/
def Tab : Nat := 0xFF09

/-- gdk keyval of `key::space`. -/
def space : Nat := 0x020

/-- gdk keyval of `key::BackSpace`. -/
def BackSpace : Nat := 0xFF08

/-- gdk keyval of `key::Escape`. -/
def Escape : Nat := 0xFF1B

/-- gdk keyval of `key::Super_L`. -/
def Super_L : Nat := 0xFFEB

/-- gdk keyval of `key::Super_R`. -/
def Super_R : Nat := 0xFFEC

/-- gdk keyval of `key::Control_L`. -/
def Control_L : Nat := 0xFFE3

/-- gdk keyval of `key::Control_R`. -/
def Control_R : Nat := 0xFFE4

/-- gdk keyval of `key::Shift_L`. -/
def Shift_L : Nat := 0xFFE1

/-- gdk keyval of `key::Shift_R`. -/
def Shift_R : Nat := 0xFFE2

/-- gdk keyval of `key::Shift_Lock`. -/
def Shift_Lock : Nat := 0xFFE6

/-- gdk keyval of `key::Alt_L`. -/
def Alt_L : Nat := 0xFFE9

/-- gdk keyval of `key::Alt_R`. -/
def Alt_R : Nat := 0xFFEA

/-- gdk keyval of `key::Option` (XF86 keysym). -/
def Option : Nat := 0x1008FF6C

/-- gdk keyval of `key::End`. -/
def End : Nat := 0xFF57

/-- gdk keyval of `key::Home`. -/
def Home : Nat := 0xFF50

/-- gdk keyval of `key::Page_Down`. -/
def Page_Down : Nat := 0xFF56

/-- gdk keyval of `key::Page_Up`. -/
def Page_Up : Nat := 0xFF55

/-- gdk keyval of `key::leftarrow` (the technical arrow symbol). -/
def leftarrow : Nat := 0x08FB

/-- gdk keyval of `key::uparrow` (the technical arrow symbol). -/
def uparrow : Nat := 0x08FC

/-- gdk keyval of `key::rightarrow` (the technical arrow symbol). -/
def rightarrow : Nat := 0x08FD

/-- gdk keyval of `key::downarrow` (the technical arrow symbol). -/
def downarrow : Nat := 0x08FE

/-- gdk keyval of `key::F1`. -/
def F1 : Nat := 0xFFBE

/-- gdk keyval of `key::F2`. -/
def F2 : Nat := 0xFFBF

/-- gdk keyval of `key::F3`. -/
def F3 : Nat := 0xFFC0

/-- gdk keyval of `key::F4`. -/
def F4 : Nat := 0xFFC1

/-- gdk keyval of `key::F5`. -/
def F5 : Nat := 0xFFC2

/-- gdk keyval of `key::F6`. -/
def F6 : Nat := 0xFFC3

/-- gdk keyval of `key::F7`. -/
def F7 : Nat := 0xFFC4

/-- gdk keyval of `key::F8`. -/
def F8 : Nat := 0xFFC5

/-- gdk keyval of `key::F9`. -/
def F9 : Nat := 0xFFC6

/-- gdk keyval of `key::F10`. -/
def F10 : Nat := 0xFFC7

/-- gdk keyval of `key::F11`. -/
def F11 : Nat := 0xFFC8

/-- gdk keyval of `key::F12`. -/
def F12 : Nat := 0xFFC9

end GDK

namespace Relm

/-- The keyvals named by an arm of the `match` in `gdk_key_to_enigo_key`. -/
def namedKeyvals : List Nat :=
  [GDK.Return, GDK.Tab, GDK.space, GDK.BackSpace, GDK.Escape,
   GDK.Super_L, GDK.Super_R, GDK.Control_L, GDK.Control_R,
   GDK.Shift_L, GDK.Shift_R, GDK.Shift_Lock, GDK.Alt_L, GDK.Alt_R,
   GDK.Option, GDK.End, GDK.Home, GDK.Page_Down, GDK.Page_Up,
   GDK.leftarrow, GDK.rightarrow, GDK.downarrow, GDK.uparrow,
   GDK.F1, GDK.F2, GDK.F3, GDK.F4, GDK.F5, GDK.F6,
   GDK.F7, GDK.F8, GDK.F9, GDK.F10, GDK.F11, GDK.F12]

/-- `gdk_key_to_enigo_key`, with a gdk `Key` represented by its `u32` keyval.
`keyvalToUnicode` abstracts gdk's `keyval_to_unicode` (external crate);
`Raw` truncates the keyval with `as u16`. -/
def gdk_key_to_enigo_key (keyvalToUnicode : Nat → Option Char) (key : Nat) : EnigoKey :=
  if key = GDK.Return then EnigoKey.Return
  else if key = GDK.Tab then EnigoKey.Tab
  else if key = GDK.space then EnigoKey.Space
  else if key = GDK.BackSpace then EnigoKey.Backspace
  else if key = GDK.Escape then EnigoKey.Escape
  else if key = GDK.Super_L ∨ key = GDK.Super_R then EnigoKey.Meta
  else if key = GDK.Control_L ∨ key = GDK.Control_R then EnigoKey.Control
  else if key = GDK.Shift_L ∨ key = GDK.Shift_R then EnigoKey.Shift
  else if key = GDK.Shift_Lock then EnigoKey.CapsLock
  else if key = GDK.Alt_L ∨ key = GDK.Alt_R then EnigoKey.Alt
  else if key = GDK.Option then EnigoKey.Option
  else if key = GDK.End then EnigoKey.End
  else if key = GDK.Home then EnigoKey.Home
  else if key = GDK.Page_Down then EnigoKey.PageDown
  else if key = GDK.Page_Up then EnigoKey.PageUp
  else if key = GDK.leftarrow then EnigoKey.LeftArrow
  else if key = GDK.rightarrow then EnigoKey.RightArrow
  else if key = GDK.downarrow then EnigoKey.DownArrow
  else if key = GDK.uparrow then EnigoKey.UpArrow
  else if key = GDK.F1 then EnigoKey.F1
  else if key = GDK.F2 then EnigoKey.F2
  else if key = GDK.F3 then EnigoKey.F3
  else if key = GDK.F4 then EnigoKey.F4
  else if key = GDK.F5 then EnigoKey.F5
  else if key = GDK.F6 then EnigoKey.F6
  else if key = GDK.F7 then EnigoKey.F7
  else if key = GDK.F8 then EnigoKey.F8
  else if key = GDK.F9 then EnigoKey.F9
  else if key = GDK.F10 then EnigoKey.F10
  else if key = GDK.F11 then EnigoKey.F11
  else if key = GDK.F12 then EnigoKey.F12
  else
    match keyvalToUnicode key with
    | some c => EnigoKey.Layout c
    | none => EnigoKey.Raw (key % 65536)

end Relm

namespace Relm

theorem observeCallback_some {MSG : Type} (predicate : MSG → Bool) (cell : Option MSG)
    (msg m : MSG) (h : observeCallback predicate cell msg = some m) :
    predicate m = true ∨ cell = some m := by
  unfold observeCallback at h
  split at h
  · cases h
    left
    assumption
  · right
    exact h

theorem runLoopBatch_some {MSG : Type} (predicate : MSG → Bool) (batch : List MSG) :
    ∀ (cell : Option MSG) (m : MSG), runLoopBatch predicate cell batch = some m →
      predicate m = true ∨ cell = some m := by
  induction batch with
  | nil =>
      intro cell m h
      right
      exact h
  | cons b bs ih =>
      intro cell m h
      simp only [runLoopBatch, List.foldl] at h
      rcases ih (observeCallback predicate cell b) m h with hp | hc
      · left
        exact hp
      · rcases observeCallback_some predicate cell b m hc with hp | hc2
        · left
          exact hp
        · right
          exact hc2

theorem cellAfter_some {MSG : Type} (predicate : MSG → Bool) (world : List (List MSG)) :
    ∀ (cell : Option MSG) (m : MSG), cellAfter predicate cell world = some m →
      predicate m = true ∨ cell = some m := by
  induction world with
  | nil =>
      intro cell m h
      right
      exact h
  | cons batch rest ih =>
      intro cell m h
      simp only [cellAfter, List.foldl] at h
      rcases ih (runLoopBatch predicate cell batch) m h with hp | hc
      · left
        exact hp
      · rcases runLoopBatch_some predicate batch cell m hc with hp | hc2
        · left
          exact hp
        · right
          exact hc2

theorem waitAux_spec {MSG : Type} (predicate : MSG → Bool) :
    ∀ (world : List (List MSG)) (cell : Option MSG) (m : MSG) (n : Nat),
      waitAux predicate cell world = some (m, n) →
      n ≤ world.length ∧
      cellAfter predicate cell (world.take n) = some m ∧
      ∀ k, k < n → cellAfter predicate cell (world.take k) = none := by
  intro world
  induction world with
  | nil =>
      intro cell m n h
      cases cell with
      | none => simp [waitAux] at h
      | some m2 =>
          simp only [waitAux, Option.some.injEq, Prod.mk.injEq] at h
          obtain ⟨hm, hn⟩ := h
          subst hm
          subst hn
          refine ⟨Nat.le_refl 0, rfl, ?_⟩
          intro k hk
          exact absurd hk (Nat.not_lt_zero k)
  | cons batch rest ih =>
      intro cell m n h
      cases cell with
      | some m2 =>
          simp only [waitAux, Option.some.injEq, Prod.mk.injEq] at h
          obtain ⟨hm, hn⟩ := h
          subst hm
          subst hn
          refine ⟨Nat.zero_le _, rfl, ?_⟩
          intro k hk
          exact absurd hk (Nat.not_lt_zero k)
      | none =>
          simp only [waitAux, Option.map_eq_some'] at h
          obtain ⟨p, hp, hpn⟩ := h
          have hm : p.1 = m := congrArg Prod.fst hpn
          have hn : p.2 + 1 = n := congrArg Prod.snd hpn
          subst hm
          obtain ⟨h1, h2, h3⟩ := ih (runLoopBatch predicate none batch) p.1 p.2 (by
            exact hp)
          subst hn
          refine ⟨Nat.succ_le_succ h1, ?_, ?_⟩
          · simpa [cellAfter, List.foldl] using h2
          · intro k hk
            cases k with
            | zero => rfl
            | succ j =>
                have hj : j < p.2 := Nat.lt_of_succ_lt_succ hk
                simpa [cellAfter, List.foldl] using h3 j hj

/-- C1: every message returned by `Observer::wait` on an observer built by
`Observer::new(stream, predicate)` satisfies the predicate — the stream
callback only stores messages with `predicate(msg) == true` in the result
cell, and `wait` only returns what that cell holds. -/
theorem observer_wait_satisfies_predicate {MSG : Type} (predicate : MSG → Bool)
    (world : List (List MSG)) (m : MSG) (n : Nat)
    (h : (Observer.new predicate).wait world = some (m, n)) :
    predicate m = true := by
  have hspec := waitAux_spec predicate world none m n h
  rcases cellAfter_some predicate (world.take n) none m hspec.2.1 with hp | hc
  · exact hp
  · exact absurd hc (by simp)

/-- Witness for C1 at a concrete predicate and world. -/
theorem observer_wait_satisfies_predicate_witness :
    decide (4 % 2 = 0) = true :=
  observer_wait_satisfies_predicate (fun n : Nat => decide (n % 2 = 0)) [[1], [3, 4]] 4 2
    (by decide)

/-- C2: `Observer::wait` busy-polls: when it returns `(m, n)`, it made one
`gtk_test::run_loop` call per iteration in which the result cell was still
`none` (there were exactly `n` such iterations, all before the return), and
it returned only once the cell held `some m`. -/
theorem observer_wait_busy_polls {MSG : Type} (predicate : MSG → Bool)
    (world : List (List MSG)) (m : MSG) (n : Nat)
    (h : (Observer.new predicate).wait world = some (m, n)) :
    n ≤ world.length ∧
    cellAfter predicate none (world.take n) = some m ∧
    ∀ k, k < n → cellAfter predicate none (world.take k) = none :=
  waitAux_spec predicate world none m n h

/-- Witness for C2 at a concrete predicate and world. -/
theorem observer_wait_busy_polls_witness :
    cellAfter (fun n : Nat => decide (n % 2 = 0)) none ([[1], [3, 4]].take 2) = some 4 :=
  (observer_wait_busy_polls (fun n : Nat => decide (n % 2 = 0)) [[1], [3, 4]] 4 2
    (by decide)).2.1

end Relm

namespace Relm

theorem gtkWaitAux_spec :
    ∀ (pumps : List Bool) (flag : Bool) (n : Nat),
      gtkWaitAux flag pumps = some n →
      n ≤ pumps.length ∧
      flagAfterPumps flag (pumps.take n) = true ∧
      ∀ k, k < n → flagAfterPumps flag (pumps.take k) = false := by
  intro pumps
  induction pumps with
  | nil =>
      intro flag n h
      cases flag with
      | false => simp [gtkWaitAux] at h
      | true =>
          simp only [gtkWaitAux, Option.some.injEq] at h
          subst h
          refine ⟨Nat.le_refl 0, rfl, ?_⟩
          intro k hk
          exact absurd hk (Nat.not_lt_zero k)
  | cons fired rest ih =>
      intro flag n h
      cases flag with
      | true =>
          simp only [gtkWaitAux, Option.some.injEq] at h
          subst h
          refine ⟨Nat.zero_le _, rfl, ?_⟩
          intro k hk
          exact absurd hk (Nat.not_lt_zero k)
      | false =>
          simp only [gtkWaitAux, Option.map_eq_some'] at h
          obtain ⟨j, hj, hjn⟩ := h
          obtain ⟨h1, h2, h3⟩ := ih (if fired then gtkSignalHandler false else false) j hj
          subst hjn
          refine ⟨Nat.succ_le_succ h1, ?_, ?_⟩
          · simpa [flagAfterPumps, List.foldl] using h2
          · intro k hk
            cases k with
            | zero => rfl
            | succ i =>
                have hi : i < j := Nat.lt_of_succ_lt_succ hk
                simpa [flagAfterPumps, List.foldl] using h3 i hi

/-- C3: the observer built by `gtk_observer_new!` starts with its shared flag
`false`, the connected signal handler sets the flag to `true` when the signal
fires, and `observer.wait()` (used by the input helpers) returns only once
the flag is `true`: when `wait` returns after `n` pumps, the flag is set at
pump `n` and was still `false` at every earlier pump. -/
theorem gtk_observer_flag_protocol (pumps : List Bool) (n : Nat)
    (h : gtkObserverNew.wait pumps = some n) :
    gtkObserverNew.inner = false ∧
    (∀ flag, gtkSignalHandler flag = true) ∧
    n ≤ pumps.length ∧
    flagAfterPumps false (pumps.take n) = true ∧
    ∀ k, k < n → flagAfterPumps false (pumps.take k) = false := by
  obtain ⟨h1, h2, h3⟩ := gtkWaitAux_spec pumps false n h
  exact ⟨rfl, fun _ => rfl, h1, h2, h3⟩

/-- Witness for C3 at a concrete world of pumps. -/
theorem gtk_observer_flag_protocol_witness :
    flagAfterPumps false ([false, true, false].take 2) = true :=
  (gtk_observer_flag_protocol [false, true, false] 2 (by decide)).2.2.2.1

theorem gtkWaitAux_terminates :
    ∀ (pumps : List Bool), true ∈ pumps → ∃ n, gtkWaitAux false pumps = some n := by
  intro pumps
  induction pumps with
  | nil =>
      intro h
      exact absurd h (List.not_mem_nil true)
  | cons fired rest ih =>
      intro h
      cases fired with
      | true =>
          refine ⟨1, ?_⟩
          simp [gtkWaitAux, gtkSignalHandler]
      | false =>
          have hrest : true ∈ rest := by
            rcases List.mem_cons.mp h with h0 | h0
            · exact absurd h0.symm (by decide)
            · exact h0
          obtain ⟨n, hn⟩ := ih hrest
          refine ⟨n + 1, ?_⟩
          simp [gtkWaitAux, hn]

/-- C6: for the input helpers, if the injected synthetic event makes the
connected toolkit signal fire during some event-loop pump, then the helper's
`observer.wait()` terminates (returns after some number of pumps).  The
eventual firing itself is the toolkit's side of the contract. -/
theorem input_helper_wait_terminates (pumps : List Bool) (h : true ∈ pumps) :
    ∃ n, gtkObserverNew.wait pumps = some n :=
  gtkWaitAux_terminates pumps h

/-- Witness for C6 at a concrete world of pumps. -/
theorem input_helper_wait_terminates_witness :
    ∃ n, gtkObserverNew.wait [false, false, true] = some n :=
  input_helper_wait_terminates [false, false, true] (by decide)

/-- C5: assertion failure is a panic, not an error value: the match generated
by `relm_observer_wait!` panics with "Wrong message type." exactly when the
waited message does not match the expected variant pattern (and otherwise
yields the bound fields, not an error), and the `take().expect(...)` in
`Observer::wait` panics exactly when the result cell is empty at take time. -/
theorem assertion_failure_is_panic {MSG α : Type} (extract : MSG → Option α) (msg : MSG)
    (cell : Option MSG) :
    (relmObserverWait extract msg = Except.error "Wrong message type." ↔ extract msg = none) ∧
    (∀ fields, relmObserverWait extract msg = Except.ok fields ↔ extract msg = some fields) ∧
    (takeExpect cell = Except.error "Message to take" ↔ cell = none) ∧
    (∀ msg2, takeExpect cell = Except.ok msg2 ↔ cell = some msg2) := by
  refine ⟨?_, ?_, ?_, ?_⟩
  · cases hx : extract msg <;> simp [relmObserverWait, hx]
  · intro fields
    cases hx : extract msg <;> simp [relmObserverWait, hx]
  · cases cell <;> simp [takeExpect]
  · intro msg2
    cases cell <;> simp [takeExpect]

end Relm

namespace WidgetList

/-- C9: `Win::update(Remove)` is a no-op when no counters exist: `pop` on the
empty list returns `None`, so nothing is removed from the hbox and the whole
state is unchanged. -/
theorem win_remove_empty_noop (s : WinState) (h : s.counters = []) :
    Win.update Msg.Remove s = s := by
  simp [Win.update, h]

/-- Witness for C9 at the initial window state. -/
theorem win_remove_empty_noop_witness :
    Win.update Msg.Remove Win.view = Win.view :=
  win_remove_empty_noop Win.view rfl

/-- C4: `Win::update`: `Add` creates one new `Counter` component (fresh
widget, model `counter == 0`), adds its widget to the hbox and appends it to
the counters list (length grows by exactly 1); `Remove` on a non-empty
counters list removes exactly the most recently added counter from the list
(length shrinks by exactly 1) and removes its widget from the hbox (which
shrinks by exactly 1 whenever that widget is in the hbox); `Quit` quits the
main loop. -/
theorem win_update_spec (s : WinState) :
    ((Win.update Msg.Add s).counters =
        s.counters ++ [{ id := s.nextId, state := Counter.view Counter.model }] ∧
     (Win.update Msg.Add s).counters.length = s.counters.length + 1 ∧
     (Win.update Msg.Add s).hbox = s.hbox ++ [s.nextId]) ∧
    (∀ rest comp, s.counters = rest ++ [comp] →
       (Win.update Msg.Remove s).counters = rest ∧
       (Win.update Msg.Remove s).counters.length + 1 = s.counters.length ∧
       (Win.update Msg.Remove s).hbox = s.hbox.erase comp.id ∧
       (comp.id ∈ s.hbox → (Win.update Msg.Remove s).hbox.length + 1 = s.hbox.length)) ∧
    (Win.update Msg.Quit s).quit = true := by
  refine ⟨⟨rfl, by simp [Win.update, Win.addWidget], rfl⟩, ?_, rfl⟩
  intro rest comp hc
  have hlast : s.counters.getLast? = some comp := by
    rw [hc]
    exact List.getLast?_concat rest
  have hupd : Win.update Msg.Remove s =
      { s with counters := s.counters.dropLast, hbox := s.hbox.erase comp.id } := by
    simp [Win.update, hlast]
  have hdrop : s.counters.dropLast = rest := by
    rw [hc]
    exact List.dropLast_concat
  refine ⟨?_, ?_, ?_, ?_⟩
  · rw [hupd]
    exact hdrop
  · rw [hupd]
    show s.counters.dropLast.length + 1 = s.counters.length
    rw [hdrop, hc]
    simp
  · rw [hupd]
  · intro hm
    rw [hupd]
    have hpos : 0 < s.hbox.length := List.length_pos_of_mem hm
    have herase := List.length_erase_of_mem hm
    simp only [herase]
    omega

/-- Witness for C4 on a window holding one counter. -/
theorem win_update_spec_witness :
    (Win.update Msg.Remove
        { counters := [{ id := 0, state := Counter.view Counter.model }],
          hbox := [0], nextId := 1, quit := false }).counters = [] :=
  ((win_update_spec
      { counters := [{ id := 0, state := Counter.view Counter.model }],
        hbox := [0], nextId := 1, quit := false }).2.1 []
    { id := 0, state := Counter.view Counter.model } rfl).1

theorem wrap32_eq_of_range (n : Int) (h1 : -2147483648 ≤ n) (h2 : n < 2147483648) :
    wrap32 n = n := by
  unfold wrap32
  norm_num
  omega

/-- C8 counterexample: at `counter == i32::MAX` the claim "update(Increment)
increases counter by exactly 1" fails — `i32` arithmetic wraps to
`i32::MIN`. -/
theorem counter_increment_overflow :
    (Counter.update CounterMsg.Increment
        { model := { counter := 2147483647 },
          widget := { counter_label := "2147483647" } }).model.counter ≠
      2147483647 + 1 := by
  decide

/-- C8 (amended): the label text always equals the decimal string of the
model's counter: the initial model has `counter == 0` and the initial label
shows "0"; `update(Increment)` sets the counter to `counter + 1` in wrapping
`i32` arithmetic (exactly `counter + 1` whenever `counter < i32::MAX`) and
`update(Decrement)` to `counter - 1` (exactly `counter - 1` whenever
`counter > i32::MIN`), each immediately setting the label text to
`counter.to_string()`. -/
theorem counter_label_tracks_counter :
    (Counter.view Counter.model).model.counter = 0 ∧
    (Counter.view Counter.model).widget.counter_label = toString (0 : Int) ∧
    (∀ s, (Counter.update CounterMsg.Increment s).model.counter =
       wrap32 (s.model.counter + 1)) ∧
    (∀ s, (Counter.update CounterMsg.Decrement s).model.counter =
       wrap32 (s.model.counter - 1)) ∧
    (∀ s e, (Counter.update e s).widget.counter_label =
       toString (Counter.update e s).model.counter) ∧
    (∀ s, -2147483648 ≤ s.model.counter → s.model.counter < 2147483647 →
       (Counter.update CounterMsg.Increment s).model.counter = s.model.counter + 1) ∧
    (∀ s, -2147483648 < s.model.counter → s.model.counter ≤ 2147483647 →
       (Counter.update CounterMsg.Decrement s).model.counter = s.model.counter - 1) := by
  refine ⟨rfl, by decide, fun s => rfl, fun s => rfl, ?_, ?_, ?_⟩
  · intro s e
    cases e <;> rfl
  · intro s h1 h2
    exact wrap32_eq_of_range (s.model.counter + 1) (by omega) (by omega)
  · intro s h1 h2
    exact wrap32_eq_of_range (s.model.counter - 1) (by omega) (by omega)

/-- Witness for the amended C8 at a concrete counter state. -/
theorem counter_label_tracks_counter_witness :
    (Counter.update CounterMsg.Increment
        { model := { counter := 5 }, widget := { counter_label := "5" } }).model.counter =
      5 + 1 :=
  counter_label_tracks_counter.2.2.2.2.2.1
    { model := { counter := 5 }, widget := { counter_label := "5" } } (by decide) (by decide)

end WidgetList

namespace Relm

/-- C10: `gdk_key_to_enigo_key` is total: any keyval not named by a match arm
maps to `Layout(char)` when the keyval has a unicode translation and to
`Raw(keyval as u16)` otherwise, so every input has a result; the named keys
map to their listed counterparts, with the left and right variants of Super,
Control, Shift and Alt collapsing to the same enigo key. -/
theorem gdk_key_total (u : Nat → Option Char) (key : Nat) :
    (key ∉ namedKeyvals →
       (∀ c, u key = some c → gdk_key_to_enigo_key u key = EnigoKey.Layout c) ∧
       (u key = none → gdk_key_to_enigo_key u key = EnigoKey.Raw (key % 65536))) ∧
    (∃ e, gdk_key_to_enigo_key u key = e) ∧
    gdk_key_to_enigo_key u GDK.Return = EnigoKey.Return ∧
    gdk_key_to_enigo_key u GDK.Tab = EnigoKey.Tab ∧
    gdk_key_to_enigo_key u GDK.space = EnigoKey.Space ∧
    gdk_key_to_enigo_key u GDK.BackSpace = EnigoKey.Backspace ∧
    gdk_key_to_enigo_key u GDK.Escape = EnigoKey.Escape ∧
    gdk_key_to_enigo_key u GDK.Super_L = EnigoKey.Meta ∧
    gdk_key_to_enigo_key u GDK.Super_R = EnigoKey.Meta ∧
    gdk_key_to_enigo_key u GDK.Control_L = EnigoKey.Control ∧
    gdk_key_to_enigo_key u GDK.Control_R = EnigoKey.Control ∧
    gdk_key_to_enigo_key u GDK.Shift_L = EnigoKey.Shift ∧
    gdk_key_to_enigo_key u GDK.Shift_R = EnigoKey.Shift ∧
    gdk_key_to_enigo_key u GDK.Shift_Lock = EnigoKey.CapsLock ∧
    gdk_key_to_enigo_key u GDK.Alt_L = EnigoKey.Alt ∧
    gdk_key_to_enigo_key u GDK.Alt_R = EnigoKey.Alt ∧
    gdk_key_to_enigo_key u GDK.Option = EnigoKey.Option ∧
    gdk_key_to_enigo_key u GDK.End = EnigoKey.End ∧
    gdk_key_to_enigo_key u GDK.Home = EnigoKey.Home ∧
    gdk_key_to_enigo_key u GDK.Page_Down = EnigoKey.PageDown ∧
    gdk_key_to_enigo_key u GDK.Page_Up = EnigoKey.PageUp ∧
    gdk_key_to_enigo_key u GDK.leftarrow = EnigoKey.LeftArrow ∧
    gdk_key_to_enigo_key u GDK.rightarrow = EnigoKey.RightArrow ∧
    gdk_key_to_enigo_key u GDK.downarrow = EnigoKey.DownArrow ∧
    gdk_key_to_enigo_key u GDK.uparrow = EnigoKey.UpArrow ∧
    gdk_key_to_enigo_key u GDK.F1 = EnigoKey.F1 ∧
    gdk_key_to_enigo_key u GDK.F2 = EnigoKey.F2 ∧
    gdk_key_to_enigo_key u GDK.F3 = EnigoKey.F3 ∧
    gdk_key_to_enigo_key u GDK.F4 = EnigoKey.F4 ∧
    gdk_key_to_enigo_key u GDK.F5 = EnigoKey.F5 ∧
    gdk_key_to_enigo_key u GDK.F6 = EnigoKey.F6 ∧
    gdk_key_to_enigo_key u GDK.F7 = EnigoKey.F7 ∧
    gdk_key_to_enigo_key u GDK.F8 = EnigoKey.F8 ∧
    gdk_key_to_enigo_key u GDK.F9 = EnigoKey.F9 ∧
    gdk_key_to_enigo_key u GDK.F10 = EnigoKey.F10 ∧
    gdk_key_to_enigo_key u GDK.F11 = EnigoKey.F11 ∧
    gdk_key_to_enigo_key u GDK.F12 = EnigoKey.F12 := by
  refine ⟨?_, ⟨gdk_key_to_enigo_key u key, rfl⟩, rfl, rfl, rfl, rfl, rfl, rfl, rfl, rfl,
    rfl, rfl, rfl, rfl, rfl, rfl, rfl, rfl, rfl, rfl, rfl, rfl, rfl, rfl, rfl, rfl, rfl,
    rfl, rfl, rfl, rfl, rfl, rfl, rfl, rfl, rfl, rfl⟩
  intro hmem
  simp only [namedKeyvals, List.mem_cons, List.mem_singleton] at hmem
  push_neg at hmem
  obtain ⟨e1, e2, e3, e4, e5, e6, e7, e8, e9, e10, e11, e12, e13, e14, e15, e16, e17,
    e18, e19, e20, e21, e22, e23, e24, e25, e26, e27, e28, e29, e30, e31, e32, e33,
    e34, e35⟩ := hmem
  constructor
  · intro c hc
    simp [gdk_key_to_enigo_key, e1, e2, e3, e4, e5, e6, e7, e8, e9, e10, e11, e12, e13,
      e14, e15, e16, e17, e18, e19, e20, e21, e22, e23, e24, e25, e26, e27, e28, e29,
      e30, e31, e32, e33, e34, e35, hc]
  · intro hc
    simp [gdk_key_to_enigo_key, e1, e2, e3, e4, e5, e6, e7, e8, e9, e10, e11, e12, e13,
      e14, e15, e16, e17, e18, e19, e20, e21, e22, e23, e24, e25, e26, e27, e28, e29,
      e30, e31, e32, e33, e34, e35, hc]

/-- Witness for C10 at a keyval outside the named arms with no unicode
translation. -/
theorem gdk_key_total_witness :
    gdk_key_to_enigo_key (fun _ => none) 999 = EnigoKey.Raw (999 % 65536) :=
  ((gdk_key_total (fun _ => none) 999).1 (by decide)).2 rfl

end Relm
